import Mathlib

/-!
Shallow embedding of the `issue9/cmdopt` subcommand dispatcher.

The repository bundles several historical revisions of the same small Go
library.  The main model below (`Cmdopt`) follows the latest revision
(`src/cmdopt.go`, first document: `CmdOpt`, `New`, `NewPlain`, `Exec`,
`buildUsage`, together with `Commands`/`Command` from `src/command.go` and
the help-subcommand handler of `src/command.go`).  The namespace `V2`
models the registration operation `Add` of the earlier revision kept in
`src/unnamed/part_006`, which derives a command title from the first line
of its usage text.

Conventions of the embedding:
  * Go strings are Lean `String`s; `len` on a Go string is
    `String.utf8ByteSize`; byte indexing of the first/last byte is modelled
    on `String.data` (the first/last byte of a UTF-8 string determines its
    first/last character for the ASCII characters the code compares with).
  * The `flag` package is an external collaborator: a bound flag set is
    represented by the text its `PrintDefaults` renders (`getFlags` in the
    source) plus an abstract executable behaviour.  A command's
    `exec`/`do2exec` closure (parse then run) is an abstract function from
    the argument list to the strings it writes and the error it returns.
  * The output sink `io.Writer` is modelled by a log of written strings
    plus a fixed error behaviour `write : String → Option GoErr` giving the
    error each `Write`/`WriteString` call reports.
  * Go `panic` is the `Step.panicked` constructor; a panic aborts the
    operation, so no post-panic state is carried.
  * Go's `map[string]*command` is an association list with unique keys;
    `m[k] = v` is `mapInsert` (replace or append), lookup is `mapLookup`,
    and range-iteration feeding `sort.Strings` is modelled by sorting the
    key list (the sorted result is independent of iteration order, which is
    proved below).
-/

namespace Cmdopt

/-- Errors returned by handlers and flag parsing.  `errHelp` is the
distinguished `flag.ErrHelp` sentinel; every other error is abstract.
`errors.Is(err, flag.ErrHelp)` is equality with `errHelp`. -/
inductive GoErr where
  | errHelp
  | other (msg : String)
deriving DecidableEq

/-- Outcome of a Go operation that can `panic`. -/
inductive Step (α : Type) where
  | panicked (msg : String)
  | ok (val : α)

def Step.isPanic {α : Type} : Step α → Bool
  | .panicked _ => true
  | .ok _ => false

/-- A registered command: the source `command` struct of the latest
revision (`exec` closure, `title`, processed `usage`), with the
`exec(w, args)` behaviour abstracted to the strings it writes and the
error it returns. -/
structure Command where
  exec : List String → List String × Option GoErr
  title : String
  usage : String

/-- The result of running a `CommandFunc` builder on a fresh flag set:
`flagsText` is what `getFlags` renders for the bound flag set, `run` is
the `do2exec(do, fs)` closure (parse the arguments, then run the
returned `DoFunc`). -/
structure CommandFunc where
  flagsText : String
  run : List String → List String × Option GoErr

/-- Go map assignment `m[k] = v`: replace the entry if the key is present,
otherwise add it. -/
def mapInsert {α : Type} (m : List (String × α)) (k : String) (v : α) :
    List (String × α) :=
  match m with
  | [] => [(k, v)]
  | (k', v') :: rest =>
      if k' = k then (k, v) :: rest else (k', v') :: mapInsert rest k v

/-- Go map lookup `m[k]`. -/
def mapLookup {α : Type} (m : List (String × α)) (k : String) : Option α :=
  match m with
  | [] => none
  | (k', v') :: rest => if k' = k then some v' else mapLookup rest k

/-- The keys of the registry, in insertion order. -/
def mapKeys {α : Type} (m : List (String × α)) : List String :=
  m.map Prod.fst

/-- The two placeholder tokens recognised by the usage templates. -/
def flagsPlaceholder : String := "\x7b\x7bflags\x7d\x7d"

def commandsPlaceholder : String := "\x7b\x7bcommands\x7d\x7d"

/-- Core of `strings.ReplaceAll` for a non-empty pattern: scan left to
right, replacing each non-overlapping occurrence of `pat` by `rep`. -/
def goReplaceAllAux (pat rep : List Char) : List Char → List Char
  | [] => []
  | c :: cs =>
      if pat ≠ [] ∧ pat.isPrefixOf (c :: cs) then
        rep ++ goReplaceAllAux pat rep (List.drop pat.length (c :: cs))
      else
        c :: goReplaceAllAux pat rep cs
termination_by l => l.length
decreasing_by
  · rename_i h
    simp only [List.length_drop, List.length_cons]
    have hp : 0 < pat.length := List.length_pos.mpr h.1
    omega
  · simp only [List.length_cons]
    omega

/-- Go `strings.ReplaceAll(s, pat, rep)`.  For an empty pattern Go inserts
`rep` before every rune and at the end; the call sites in the source only
ever pass the non-empty placeholder literals. -/
def goReplaceAll (s pat rep : String) : String :=
  if pat.data = [] then ⟨rep.data ++ s.data.flatMap (fun c => c :: rep.data)⟩
  else ⟨goReplaceAllAux pat.data rep.data s.data⟩

/-- Core of `strings.Contains`. -/
def containsAux (pat : List Char) : List Char → Bool
  | [] => pat.isEmpty
  | c :: cs => pat.isPrefixOf (c :: cs) || containsAux pat cs

/-- Go `strings.Contains(s, pat)`. -/
def goContains (s pat : String) : Bool :=
  containsAux pat.data s.data

/-- Go `strings.Repeat(" ", n)`. -/
def spaces (n : Nat) : String := ⟨List.replicate n ' '⟩

/-- The dispatcher state (`CmdOpt` struct of the latest revision).
`cmd` is the pseudo-command holding the top-level handler; `topFlagsText`
is `getFlags(fs)` for the top-level flag set (constant once the top-level
`CommandFunc` has run at construction); `write` is the sink's error
behaviour; `usageTemplate` is the template captured by the `opt.usage`
closure. -/
structure CmdOpt where
  cmd : Command
  usageTemplate : String
  topFlagsText : String
  write : String → Option GoErr
  notFound : Option (String → String)
  commands : List (String × Command)
  maxCmdLen : Nat
  execed : Bool

/-- `Commands`: collect the map keys and `sort.Strings` them
(`src/command.go`). -/
def CmdOpt.Commands (opt : CmdOpt) : List String :=
  List.insertionSort (· ≤ ·) (mapKeys opt.commands)

/-- `Command`: scan the registry for `name`, returning
`(title, usage, found)` (`src/command.go`; the Go range-scan over a map
with unique keys is key lookup). -/
def CmdOpt.Command (opt : CmdOpt) (name : String) : String × String × Bool :=
  match mapLookup opt.commands name with
  | some c => (c.title, c.usage, true)
  | none => ("", "", false)

/-- The `{{commands}}` block built by `buildUsage`: one line per
registered subcommand, in `Commands()` order, the name padded with
spaces to `maxCmdLen + 3` columns and followed by its title. -/
def CmdOpt.commandsBlock (opt : CmdOpt) : String :=
  String.join ((CmdOpt.Commands opt).map (fun name =>
    let title := (CmdOpt.Command opt name).1
    "  " ++ (name ++ spaces (opt.maxCmdLen + 3 - name.utf8ByteSize)) ++
      title ++ "\n"))

/-- `buildUsage` (`src/cmdopt.go`): substitute the two placeholders in the
template and terminate the result with a newline when it is non-empty and
does not already end in one. -/
def CmdOpt.buildUsage (opt : CmdOpt) : String :=
  let usage := goReplaceAll opt.usageTemplate flagsPlaceholder opt.topFlagsText
  let usage := goReplaceAll usage commandsPlaceholder opt.commandsBlock
  if usage.data ≠ [] ∧ usage.data.getLast? ≠ some '\n' then usage ++ "\n"
  else usage

/-- `Usage`: the `opt.usage` closure rebuilds the text from the template
on every call. -/
def CmdOpt.Usage (opt : CmdOpt) : String := opt.buildUsage

/-- `NewPlain` (`src/cmdopt.go`): refuse registration after execution has
started, then store the command and stretch `maxCmdLen`. -/
def CmdOpt.NewPlain (opt : CmdOpt) (name title usage : String)
    (exec : List String → List String × Option GoErr) : Step CmdOpt :=
  if opt.execed then .panicked ("程序已经运行，不可再添加子命令！")
  else
    let opt := { opt with
      commands := mapInsert opt.commands name ⟨exec, title, usage⟩ }
    .ok { opt with
      maxCmdLen :=
        if name.utf8ByteSize > opt.maxCmdLen then name.utf8ByteSize
        else opt.maxCmdLen }

/-- `New` (`src/cmdopt.go`): validate the arguments, reject duplicate
names, run the builder, substitute `{{flags}}` in the usage text, append
a trailing newline if the last byte is not one (indexing
`usage[len(usage)-1]` panics when the substituted text is empty), then
delegate to `NewPlain`.  A `nil` builder is `none`. -/
def CmdOpt.New (opt : CmdOpt) (name title usage : String)
    (cmd : Option CommandFunc) : Step CmdOpt :=
  if name = "" then .panicked ("参数 name 不能为空")
  else if usage = "" then .panicked ("参数 usage 不能为空")
  else
    match cmd with
    | none => .panicked ("参数 cmd 不能为空")
    | some c =>
      if (mapLookup opt.commands name).isSome then
        .panicked ("存在相同名称的子命令：" ++ name)
      else
        let usage2 := goReplaceAll usage flagsPlaceholder c.flagsText
        match usage2.data.getLast? with
        | none => .panicked ("runtime error: index out of range")
        | some ch =>
          let usage3 := if ch ≠ '\n' then usage2 ++ "\n" else usage2
          opt.NewPlain name title usage3 c.run

/-- `Exec` (`src/cmdopt.go`): the one-shot latch, then the routing
three-way split on `args[0]` (indexing `name[0]` panics on an empty
first argument).  The returned triple is the state after the call, the
strings written to the sink, and the error result. -/
def CmdOpt.Exec (opt : CmdOpt) (args : List String) :
    Step (CmdOpt × List String × Option GoErr) :=
  if opt.execed then .panicked ("不可多次调用 Exec 方法")
  else
    let opt := { opt with execed := true }
    match args with
    | [] =>
      let r := opt.cmd.exec []
      .ok (opt, r.1, r.2)
    | name :: rest =>
      match name.data with
      | [] => .panicked ("runtime error: index out of range")
      | c :: _ =>
        if c = '-' then
          let r := opt.cmd.exec (name :: rest)
          match r.2 with
          | some err =>
              if err = .errHelp then .ok (opt, r.1, none)
              else .ok (opt, r.1, some err)
          | none => .ok (opt, r.1, none)
        else
          match mapLookup opt.commands name with
          | some cmd =>
            let r := cmd.exec rest
            .ok (opt, r.1, r.2)
          | none =>
            match opt.notFound with
            | some nf => .ok (opt, [nf name], opt.write (nf name))
            | none => .ok (opt, [opt.Usage], opt.write opt.Usage)

/-- Scan of the help handler's loop over `Commands()`
(`src/command.go`, `Help`): the first name equal to the request prints
that command's usage; falling off the end prints the not-found text
(dereferencing a `nil` `notFound` or a missing map entry panics). -/
def helpFind (opt : CmdOpt) (name : String) :
    List String → Step (List String × Option GoErr)
  | [] =>
    match opt.notFound with
    | some nf => .ok ([nf name], opt.write (nf name))
    | none => .panicked ("runtime error: invalid memory address or nil pointer dereference")
  | c :: rest =>
    if c = name then
      match mapLookup opt.commands c with
      | some cmd => .ok ([cmd.usage], none)
      | none => .panicked ("runtime error: invalid memory address or nil pointer dereference")
    else helpFind opt name rest

/-- The `DoFunc` registered by the help-subcommand builder
(`src/command.go`, `Help`), as a function of the positional arguments
left after the help command's own flag parse: no positional argument
prints the top-level usage; otherwise the first positional argument is
looked up via the `Commands()` loop. -/
def helpDo (opt : CmdOpt) (positionals : List String) :
    Step (List String × Option GoErr) :=
  match positionals with
  | [] => .ok ([opt.Usage], none)
  | name :: _ => helpFind opt name opt.Commands

/-- The maximum byte length over the registered names (0 for an empty
registry); what `maxCmdLen` caches for states reached through the
registration API. -/
def maxNameLen (m : List (String × Command)) : Nat :=
  m.foldr (fun p acc => max p.1.utf8ByteSize acc) 0

/-- Spec-side renderer of the top-level usage, written from the spec's
words: `{{flags}}` becomes the flag-set's rendered default listing,
`{{commands}}` becomes one line per registered subcommand — the name
padded to the maximum registered name length plus a gutter of 3,
followed by its title — with the names in sorted order; a line
terminator is appended when the result does not end in one. -/
def renderUsageSpec (tpl flags : String) (m : List (String × Command)) :
    String :=
  let names := List.insertionSort (· ≤ ·) (mapKeys m)
  let width := maxNameLen m + 3
  let block := String.join (names.map (fun n =>
    "  " ++ (n ++ spaces (width - n.utf8ByteSize)) ++
      (match mapLookup m n with
       | some c => c.title
       | none => "") ++ "\n"))
  let u := goReplaceAll tpl flagsPlaceholder flags
  let u := goReplaceAll u commandsPlaceholder block
  if u.data ≠ [] ∧ u.data.getLast? ≠ some '\n' then u ++ "\n" else u

namespace V2

/-- A registered command of the `src/unnamed/part_006` revision: the
managed flag set is represented by the text `getFlags` renders for it,
the `do` handler is abstract, and `title` is the first line of the usage
text.  `usageOut` is what the installed `fs.Usage` closure prints
(`Fprintln` of the usage with `{{flags}}` substituted, hence a trailing
newline). -/
structure Command where
  run : List String → Option Cmdopt.GoErr
  title : String
  usageOut : String

/-- The dispatcher state of the `part_006` revision, restricted to the
fields its `Add` touches. -/
structure CmdOpt where
  commands : List (String × Command)
  maxCmdLen : Nat

/-- `bytes.NewBufferString(usage).ReadString('\n')`: when the text holds
a newline the read returns everything up to and including it and the
code strips the delimiter; on `io.EOF` the whole text is the title. -/
def firstLine (usage : String) : String :=
  if usage.data.contains '\n' then ⟨usage.data.takeWhile (fun c => c ≠ '\n')⟩
  else usage

/-- `Add` (`src/unnamed/part_006`): reject duplicate names and empty
usage, derive the title from the first line of the usage text, and
refuse a `{{flags}}` placeholder inside that first line; otherwise store
the command and stretch `maxCmdLen`.  The flag set argument is modelled
by its name and its rendered default listing. -/
def Add (opt : CmdOpt) (name flagsText : String)
    (run : List String → Option Cmdopt.GoErr) (usage : String) :
    Step CmdOpt :=
  if (Cmdopt.mapLookup opt.commands name).isSome then
    .panicked ("存在相同名称的子命令：" ++ name)
  else if usage = "" then .panicked ("参数 usage 不能为空")
  else
    let title := firstLine usage
    if Cmdopt.goContains title Cmdopt.flagsPlaceholder then
      .panicked ("usage 第一行中不能包含 \x7b\x7bflags\x7d\x7d")
    else
      let entry : Command :=
        ⟨run, title,
          Cmdopt.goReplaceAll usage Cmdopt.flagsPlaceholder flagsText ++ "\n"⟩
      let opt := { opt with
        commands := Cmdopt.mapInsert opt.commands name entry }
      .ok { opt with
        maxCmdLen :=
          if name.utf8ByteSize > opt.maxCmdLen then name.utf8ByteSize
          else opt.maxCmdLen }

end V2

/-! ### Registry helper lemmas -/

theorem mem_mapKeys_of_lookup {α : Type} {m : List (String × α)} {k : String}
    {v : α} (h : mapLookup m k = some v) : k ∈ mapKeys m := by
  induction m with
  | nil => simp [mapLookup] at h
  | cons p rest ih =>
    rw [mapLookup] at h
    by_cases hk : p.1 = k
    · simp [mapKeys, hk]
    · simp only [hk, if_false] at h
      simp [mapKeys] at ih ⊢
      exact Or.inr (ih h)

theorem lookup_none_iff_not_mem {α : Type} {m : List (String × α)}
    {k : String} : mapLookup m k = none ↔ k ∉ mapKeys m := by
  induction m with
  | nil => simp [mapLookup, mapKeys]
  | cons p rest ih =>
    rw [mapLookup]
    by_cases hk : p.1 = k
    · simp [hk, mapKeys]
    · simp [hk, mapKeys, ih]
      intro h
      exact fun he => hk he.symm

theorem commands_perm (opt : CmdOpt) :
    (opt.Commands).Perm (mapKeys opt.commands) :=
  List.perm_insertionSort (· ≤ ·) (mapKeys opt.commands)

theorem commands_sorted_le (opt : CmdOpt) :
    (opt.Commands).Sorted (· ≤ ·) :=
  List.sorted_insertionSort (· ≤ ·) (mapKeys opt.commands)

theorem mem_commands_iff {opt : CmdOpt} {k : String} :
    k ∈ opt.Commands ↔ k ∈ mapKeys opt.commands :=
  (commands_perm opt).mem_iff

/-- Every successful `Exec` leaves the latch set. -/
theorem exec_ok_execed {opt : CmdOpt} {args : List String}
    {out : CmdOpt × List String × Option GoErr}
    (h : opt.Exec args = .ok out) : out.1.execed = true := by
  rw [CmdOpt.Exec] at h
  by_cases he : opt.execed
  · simp [he] at h
  · simp only [he, if_false] at h
    cases args with
    | nil => cases h; rfl
    | cons name rest =>
      cases hd : name.data with
      | nil => simp [hd] at h
      | cons c cs =>
        simp only [hd] at h
        by_cases hc : c = '-'
        · simp only [hc, if_true] at h
          rcases h2 : ({ opt with execed := true } : CmdOpt).cmd.exec
              (name :: rest) with ⟨w, e⟩
          rw [h2] at h
          cases e with
          | none => cases h; rfl
          | some err =>
            simp only at h
            by_cases hh : err = GoErr.errHelp
            · simp [hh] at h; cases h; rfl
            · simp [hh] at h; cases h; rfl
        · simp only [hc, if_false] at h
          cases hl : mapLookup ({ opt with execed := true} : CmdOpt).commands
              name with
          | some cmd => rw [hl] at h; cases h; rfl
          | none =>
            rw [hl] at h
            cases hn : ({ opt with execed := true } : CmdOpt).notFound with
            | some nf => rw [hn] at h; cases h; rfl
            | none => rw [hn] at h; cases h; rfl

/-! ### Concrete fixtures used by the witnesses -/

/-- A top-level handler that writes `"def"` and succeeds. -/
def wCmd : Command := ⟨fun _ => (["def"], none), "", ""⟩

/-- A dispatcher fresh out of construction: top-level handler `wCmd`,
an always-succeeding sink, a configured not-found formatter, no
subcommands yet. -/
def wOpt : CmdOpt :=
  { cmd := wCmd, usageTemplate := "usage", topFlagsText := "",
    write := fun _ => none, notFound := some (fun s => "not found " ++ s),
    commands := [], maxCmdLen := 0, execed := false }

/-- A subcommand handler that writes nothing and succeeds. -/
def wExec : List String → List String × Option GoErr := fun _ => ([], none)

/-- A command builder binding no flags. -/
def wCf : CommandFunc := ⟨"", wExec⟩

/-! ### C2 -/

/-- C2: a dispatcher executes at most once.  A call on an instance whose
latch is already set panics with the double-dispatch message, and any
successful `Exec` leaves the latch set, so every subsequent `Exec` on the
resulting state panics — regardless of the routing branch taken or the
error returned by the first call. -/
theorem exec_at_most_once :
    (∀ (opt : CmdOpt) (args : List String), opt.execed = true →
      opt.Exec args = .panicked ("不可多次调用 Exec 方法")) ∧
    (∀ (opt : CmdOpt) (args : List String)
      (out : CmdOpt × List String × Option GoErr),
      opt.Exec args = .ok out →
      out.1.execed = true ∧
        ∀ args2 : List String,
          out.1.Exec args2 = .panicked ("不可多次调用 Exec 方法")) := by
  constructor
  · intro opt args h
    rw [CmdOpt.Exec]
    simp [h]
  · intro opt args out h
    have he := exec_ok_execed h
    refine ⟨he, fun args2 => ?_⟩
    rw [CmdOpt.Exec]
    simp [he]

/-- Witness for C2: at a concrete dispatcher, the first call succeeds and
sets the latch, and the second call panics. -/
theorem exec_at_most_once_witness :
    ({ wOpt with execed := true } : CmdOpt).Exec [] =
      .panicked ("不可多次调用 Exec 方法") ∧
    ({ wOpt with execed := true } : CmdOpt).execed = true ∧
    ({ wOpt with execed := true } : CmdOpt).Exec ["x"] =
      .panicked ("不可多次调用 Exec 方法") :=
  ⟨exec_at_most_once.1 { wOpt with execed := true } [] rfl,
   (exec_at_most_once.2 wOpt []
      ({ wOpt with execed := true }, ["def"], none) rfl).1,
   (exec_at_most_once.2 wOpt []
      ({ wOpt with execed := true }, ["def"], none) rfl).2 ["x"]⟩

/-! ### C9 -/

/-- C9: calling `Exec` with a non-empty argument vector whose first
element is the empty string panics with the out-of-range failure when
`args[0][0]` is read: the empty string is routed neither as a flag token
nor as a subcommand name, and — whatever the registered handlers, the
not-found formatter or the usage template are — the call aborts without
producing any output. -/
theorem exec_empty_first_arg_panics (opt : CmdOpt) (rest : List String)
    (h : opt.execed = false) :
    opt.Exec ("" :: rest) = .panicked ("runtime error: index out of range") := by
  rw [CmdOpt.Exec]
  simp [h]

/-- Witness for C9 at a concrete dispatcher. -/
theorem exec_empty_first_arg_panics_witness :
    wOpt.execed = false ∧
    wOpt.Exec ["", "x"] = .panicked ("runtime error: index out of range") :=
  ⟨rfl, exec_empty_first_arg_panics wOpt ["x"] rfl⟩

/-! ### C10 -/

/-- C10: once the executed latch is set, `NewPlain` panics instead of
adding a command, and therefore so does `New` (on an executed dispatcher
every path through `New` ends in a panic before any registry change —
the help builder registers through `New` as well); while the latch is
still false, `NewPlain` succeeds and stores the command. -/
theorem registration_locked_after_exec (opt : CmdOpt)
    (name title usage : String)
    (ex : List String → List String × Option GoErr)
    (cmdf : Option CommandFunc) :
    (opt.execed = true →
      (opt.NewPlain name title usage ex).isPanic = true ∧
      (opt.New name title usage cmdf).isPanic = true) ∧
    (opt.execed = false →
      opt.NewPlain name title usage ex =
        .ok { opt with
          commands := mapInsert opt.commands name ⟨ex, title, usage⟩,
          maxCmdLen :=
            if name.utf8ByteSize > opt.maxCmdLen then name.utf8ByteSize
            else opt.maxCmdLen }) := by
  constructor
  · intro h
    constructor
    · rw [CmdOpt.NewPlain]
      simp [h, Step.isPanic]
    · rw [CmdOpt.New.eq_def]
      by_cases h1 : name = ""
      · simp [h1, Step.isPanic]
      · simp only [h1, if_false]
        by_cases h2 : usage = ""
        · simp [h2, Step.isPanic]
        · simp only [h2, if_false]
          cases cmdf with
          | none => simp [Step.isPanic]
          | some c =>
            simp only
            by_cases h3 : (mapLookup opt.commands name).isSome
            · simp [h3, Step.isPanic]
            · simp only [h3, if_false]
              cases hg : (goReplaceAll usage flagsPlaceholder
                  c.flagsText).data.getLast? with
              | none => simp [hg, Step.isPanic]
              | some ch => simp [hg, CmdOpt.NewPlain, h, Step.isPanic]
  · intro h
    rw [CmdOpt.NewPlain]
    simp [h]

/-- Witness for C10: on an executed concrete dispatcher both
registration operations panic; on the fresh one `NewPlain` stores the
command. -/
theorem registration_locked_after_exec_witness :
    (({ wOpt with execed := true } : CmdOpt).NewPlain ("a") ("t") ("u")
        wExec).isPanic = true ∧
    (({ wOpt with execed := true } : CmdOpt).New ("a") ("t") ("u")
        (some wCf)).isPanic = true ∧
    wOpt.NewPlain ("a") ("t") ("u") wExec =
      .ok { wOpt with commands := [("a", ⟨wExec, "t", "u"⟩)], maxCmdLen := 1 } :=
  ⟨((registration_locked_after_exec { wOpt with execed := true }
      ("a") ("t") ("u") wExec (some wCf)).1 rfl).1,
   ((registration_locked_after_exec { wOpt with execed := true }
      ("a") ("t") ("u") wExec (some wCf)).1 rfl).2,
   (registration_locked_after_exec wOpt ("a") ("t") ("u") wExec (some wCf)).2 rfl⟩

/-! ### C4 -/

/-- A dispatcher that already holds a command named `a` with title `t1`. -/
def c4Opt : CmdOpt :=
  { wOpt with commands := [("a", ⟨wExec, "t1", "u1"⟩)], maxCmdLen := 1 }

/-- Counterexample for C4: `NewPlain` performs no duplicate-name check.
Registering a second command under the already-present name `a` does not
panic; it silently replaces the stored entry (the title changes from
`t1` to `t2`). -/
theorem newPlain_duplicate_overwrites :
    (CmdOpt.Command c4Opt ("a")).1 = "t1" ∧
    (c4Opt.NewPlain ("a") ("t2") ("u2") wExec).isPanic = false ∧
    c4Opt.NewPlain ("a") ("t2") ("u2") wExec =
      .ok { c4Opt with commands := [("a", ⟨wExec, "t2", "u2"⟩)] } :=
  ⟨rfl, rfl, rfl⟩

/-- C4 amended: only `New` enforces name uniqueness — a registration
through `New` whose name is already present panics (on every path, so
the registry is never modified), while `NewPlain` never panics on a
not-yet-executed dispatcher and instead replaces an existing entry of
the same name. -/
theorem new_duplicate_panics (opt : CmdOpt) (name title usage : String)
    (cmdf : Option CommandFunc)
    (ex : List String → List String × Option GoErr) :
    ((mapLookup opt.commands name).isSome →
      (opt.New name title usage cmdf).isPanic = true) ∧
    (opt.execed = false →
      (opt.NewPlain name title usage ex).isPanic = false ∧
      opt.NewPlain name title usage ex =
        .ok { opt with
          commands := mapInsert opt.commands name ⟨ex, title, usage⟩,
          maxCmdLen :=
            if name.utf8ByteSize > opt.maxCmdLen then name.utf8ByteSize
            else opt.maxCmdLen }) := by
  constructor
  · intro h
    rw [CmdOpt.New.eq_def]
    by_cases h1 : name = ""
    · simp [h1, Step.isPanic]
    · simp only [h1, if_false]
      by_cases h2 : usage = ""
      · simp [h2, Step.isPanic]
      · simp only [h2, if_false]
        cases cmdf with
        | none => simp [Step.isPanic]
        | some c => simp [h, Step.isPanic]
  · intro h
    rw [CmdOpt.NewPlain]
    simp [h, Step.isPanic]

/-- Witness for the amended C4 at a concrete dispatcher: `New` panics on
the duplicate name `a`, and `NewPlain` succeeds without a duplicate
check. -/
theorem new_duplicate_panics_witness :
    (c4Opt.New ("a") ("t2") ("u2") (some wCf)).isPanic = true ∧
    (c4Opt.NewPlain ("b") ("t2") ("u2") wExec).isPanic = false :=
  ⟨(new_duplicate_panics c4Opt ("a") ("t2") ("u2") (some wCf) wExec).1 rfl,
   ((new_duplicate_panics c4Opt ("b") ("t2") ("u2") (some wCf) wExec).2 rfl).1⟩

/-! ### C1 -/

/-- C1: when `args[0]` begins with `-`, `Exec` hands the whole vector to
the top-level handler and swallows exactly a resulting `flag.ErrHelp`
(returning `nil`), propagating every other error; in the subcommand
branch the subcommand's result — `flag.ErrHelp` included — is returned
unchanged. -/
theorem exec_errhelp_swallowed_top_level_only (opt : CmdOpt)
    (h : opt.execed = false) :
    (∀ (a : String) (cs : List Char) (rest : List String),
      a.data = '-' :: cs →
      opt.Exec (a :: rest) =
        .ok ({ opt with execed := true },
          (opt.cmd.exec (a :: rest)).1,
          if (opt.cmd.exec (a :: rest)).2 = some GoErr.errHelp then none
          else (opt.cmd.exec (a :: rest)).2)) ∧
    (∀ (b : String) (c : Char) (cs : List Char) (rest : List String)
      (cmd : Command),
      b.data = c :: cs → c ≠ '-' →
      mapLookup opt.commands b = some cmd →
      opt.Exec (b :: rest) =
        .ok ({ opt with execed := true }, (cmd.exec rest).1,
          (cmd.exec rest).2)) := by
  constructor
  · intro a cs rest ha
    rw [CmdOpt.Exec]
    simp only [h, Bool.false_eq_true, if_false, ha]
    rcases hr : opt.cmd.exec (a :: rest) with ⟨w, e⟩
    cases e with
    | none => simp [hr]
    | some err =>
      by_cases hh : err = GoErr.errHelp
      · simp [hr, hh]
      · simp [hr, hh]
  · intro b c cs rest cmd hb hc hl
    rw [CmdOpt.Exec]
    simp only [h, Bool.false_eq_true, if_false, hb, hc, if_false]
    simp [hl, hc]

/-- A dispatcher whose top-level handler reports `flag.ErrHelp` and whose
only subcommand also reports `flag.ErrHelp`. -/
def c1Opt : CmdOpt :=
  { wOpt with
    cmd := ⟨fun _ => (["top"], some GoErr.errHelp), "", ""⟩,
    commands := [("sub", ⟨fun _ => ([], some GoErr.errHelp), "t", "u\n"⟩)],
    maxCmdLen := 3 }

/-- Witness for C1: at the concrete dispatcher, a `-v` vector makes the
call succeed (the help error is swallowed), while routing to `sub`
returns `flag.ErrHelp` unchanged. -/
theorem exec_errhelp_swallowed_top_level_only_witness :
    c1Opt.Exec ["-v"] = .ok ({ c1Opt with execed := true }, ["top"], none) ∧
    c1Opt.Exec ["sub"] =
      .ok ({ c1Opt with execed := true }, [], some GoErr.errHelp) :=
  ⟨(exec_errhelp_swallowed_top_level_only c1Opt rfl).1 ("-v") ['v'] [] rfl,
   (exec_errhelp_swallowed_top_level_only c1Opt rfl).2 ("sub") 's' ['u', 'b']
     [] ⟨fun _ => ([], some GoErr.errHelp), "t", "u\n"⟩ rfl (by decide) rfl⟩

/-! ### C7 -/

/-- C7: a first argument that neither starts with `-` nor names a
registered subcommand is not an error: with a not-found formatter
configured `Exec` writes the formatter's output for the name and returns
the write's error; without one it writes the full rendered top-level
usage and returns the write's error. -/
theorem exec_not_found_branch (opt : CmdOpt) (name : String) (c : Char)
    (cs : List Char) (rest : List String)
    (h : opt.execed = false) (hd : name.data = c :: cs) (hc : c ≠ '-')
    (hl : mapLookup opt.commands name = none) :
    (∀ nf : String → String, opt.notFound = some nf →
      opt.Exec (name :: rest) =
        .ok ({ opt with execed := true }, [nf name], opt.write (nf name))) ∧
    (opt.notFound = none →
      opt.Exec (name :: rest) =
        .ok ({ opt with execed := true }, [opt.Usage],
          opt.write opt.Usage)) := by
  constructor
  · intro nf hn
    rw [CmdOpt.Exec]
    simp only [h, Bool.false_eq_true, if_false, hd, hc, if_false]
    simp [hl, hn, hc]
  · intro hn
    rw [CmdOpt.Exec]
    simp only [h, Bool.false_eq_true, if_false, hd, hc, if_false]
    simp [hl, hn, hc]
    exact ⟨rfl, rfl⟩

/-- The not-found fixture without a formatter. -/
def c7Opt : CmdOpt := { wOpt with notFound := none }

/-- Witness for C7: at concrete dispatchers, an unmatched name triggers
the formatter branch (and the usage branch when no formatter is set),
returning the sink's write error, here `nil`. -/
theorem exec_not_found_branch_witness :
    wOpt.Exec ["zzz"] =
      .ok ({ wOpt with execed := true }, ["not found zzz"],
        wOpt.write ("not found zzz")) ∧
    c7Opt.Exec ["zzz"] =
      .ok ({ c7Opt with execed := true }, [c7Opt.Usage],
        c7Opt.write c7Opt.Usage) :=
  ⟨(exec_not_found_branch wOpt ("zzz") 'z' ['z', 'z'] [] rfl rfl
      (by decide) rfl).1 (fun s => "not found " ++ s) rfl,
   (exec_not_found_branch c7Opt ("zzz") 'z' ['z', 'z'] [] rfl rfl
      (by decide) rfl).2 rfl⟩

/-! ### C5 -/

/-- C5: `Commands()` returns exactly the registered names (a permutation
of the registry's key list), strictly sorted in lexicographic string
order when the names are distinct, and the result depends only on the
set of registered names, not on the order in which they were
registered. -/
theorem commands_sorted_and_registration_order_free (opt : CmdOpt)
    (h : (mapKeys opt.commands).Nodup) :
    (opt.Commands).Perm (mapKeys opt.commands) ∧
    (opt.Commands).Sorted (· < ·) ∧
    (∀ opt2 : CmdOpt,
      (mapKeys opt.commands).Perm (mapKeys opt2.commands) →
      opt.Commands = opt2.Commands) := by
  refine ⟨commands_perm opt, ?_, ?_⟩
  · have hs := commands_sorted_le opt
    have hn : (opt.Commands).Nodup := ((commands_perm opt).nodup_iff).mpr h
    exact (hs.and hn).imp (fun hab => lt_of_le_of_ne hab.1 hab.2)
  · intro opt2 hp
    exact List.eq_of_perm_of_sorted
      (((commands_perm opt).trans hp).trans (commands_perm opt2).symm)
      (commands_sorted_le opt) (commands_sorted_le opt2)

/-- The spec's example registry, registered as `t2` then `test1test1`. -/
def c5OptA : CmdOpt :=
  { wOpt with
    commands := [("t2", ⟨wExec, "b", "ub"⟩), ("test1test1", ⟨wExec, "a", "ua"⟩)],
    maxCmdLen := 10 }

/-- The same two commands registered in the opposite order. -/
def c5OptB : CmdOpt :=
  { wOpt with
    commands := [("test1test1", ⟨wExec, "a", "ua"⟩), ("t2", ⟨wExec, "b", "ub"⟩)],
    maxCmdLen := 10 }

/-- Witness for C5: the spec's example — registering `t2` and
`test1test1` in either order yields the same `Commands()` value, the
strictly sorted `["t2", "test1test1"]`. -/
theorem commands_sorted_and_registration_order_free_witness :
    c5OptA.Commands = ["t2", "test1test1"] ∧
    (c5OptA.Commands).Sorted (· < ·) ∧
    c5OptB.Commands = ["t2", "test1test1"] := by
  have hA : c5OptA.Commands = ["t2", "test1test1"] := by
    rw [CmdOpt.Commands]
    simp [c5OptA, wOpt, mapKeys, List.insertionSort, List.orderedInsert]
    decide
  have h := commands_sorted_and_registration_order_free c5OptA (by
    simp [c5OptA, wOpt, mapKeys])
  refine ⟨hA, h.2.1, ?_⟩
  rw [← h.2.2 c5OptB (by
    simp [c5OptA, c5OptB, wOpt, mapKeys]
    exact List.Perm.swap _ _ _)]
  exact hA

/-! ### C8 -/

/-- The help handler's scan of `Commands()` finds any name the registry
maps, and returns that command's usage text. -/
theorem helpFind_found {opt : CmdOpt} {name : String} {cmd : Command}
    (hl : mapLookup opt.commands name = some cmd) :
    ∀ l : List String, name ∈ l →
      helpFind opt name l = .ok ([cmd.usage], none) := by
  intro l
  induction l with
  | nil => intro hm; cases hm
  | cons c rest ih =>
    intro hm
    rw [helpFind]
    by_cases hc : c = name
    · subst hc
      simp [hl]
    · have hr : name ∈ rest := by
        rcases List.mem_cons.mp hm with h1 | h1
        · exact absurd h1.symm hc
        · exact h1
      simp only [hc, if_false]
      exact ih hr

/-- The help handler's scan reaches the not-found branch exactly when
the name is in none of the scanned entries. -/
theorem helpFind_not_mem {opt : CmdOpt} {name : String}
    {nf : String → String} (hn : opt.notFound = some nf) :
    ∀ l : List String, name ∉ l →
      helpFind opt name l = .ok ([nf name], opt.write (nf name)) := by
  intro l
  induction l with
  | nil => intro _; rw [helpFind, hn]
  | cons c rest ih =>
    intro hm
    rw [helpFind]
    have hc : c ≠ name := fun he => hm (he ▸ List.mem_cons_self c rest)
    simp only [hc, if_false]
    exact ih (fun hr => hm (List.mem_cons_of_mem c hr))

/-- C8: the registered help handler is a three-way case split on its
positional arguments — no positional argument writes the full rendered
top-level usage; a first positional argument naming a registered
subcommand writes that subcommand's usage text (not its title); any
other first positional argument writes the not-found formatter's output
for it. -/
theorem help_handler_three_way (opt : CmdOpt) :
    (helpDo opt [] = .ok ([opt.Usage], none)) ∧
    (∀ (name : String) (rest : List String) (cmd : Command),
      mapLookup opt.commands name = some cmd →
      helpDo opt (name :: rest) = .ok ([cmd.usage], none)) ∧
    (∀ (name : String) (rest : List String) (nf : String → String),
      mapLookup opt.commands name = none → opt.notFound = some nf →
      helpDo opt (name :: rest) = .ok ([nf name], opt.write (nf name))) := by
  refine ⟨rfl, ?_, ?_⟩
  · intro name rest cmd hl
    rw [helpDo]
    exact helpFind_found hl opt.Commands
      (mem_commands_iff.mpr (mem_mapKeys_of_lookup hl))
  · intro name rest nf hl hn
    rw [helpDo]
    exact helpFind_not_mem hn opt.Commands
      (fun hm => (lookup_none_iff_not_mem.mp hl) (mem_commands_iff.mp hm))

/-- Witness for C8 at the concrete dispatcher `c1Opt` (one registered
subcommand `sub` with usage `u\n`, a configured formatter): all three
branches. -/
theorem help_handler_three_way_witness :
    helpDo c1Opt [] = .ok ([c1Opt.Usage], none) ∧
    helpDo c1Opt ["sub"] =
      .ok ([(⟨fun _ => ([], some GoErr.errHelp), "t", "u\n"⟩ : Command).usage],
        none) ∧
    helpDo c1Opt ["zzz"] =
      .ok ([("not found zzz" : String)], c1Opt.write ("not found zzz")) :=
  ⟨(help_handler_three_way c1Opt).1,
   (help_handler_three_way c1Opt).2.1 ("sub") []
     ⟨fun _ => ([], some GoErr.errHelp), "t", "u\n"⟩ rfl,
   (help_handler_three_way c1Opt).2.2 ("zzz") []
     (fun s => "not found " ++ s) rfl rfl⟩

/-! ### C3 -/

/-- C3: in the revision that derives a command's title from the first
line of its usage text (`Add` of `src/unnamed/part_006`), any
registration whose usage's first line contains the `{{flags}}`
placeholder panics at registration time (every path through `Add` under
that hypothesis ends in a panic). -/
theorem add_flags_in_first_line_panics (opt : V2.CmdOpt)
    (name flagsText : String) (run : List String → Option GoErr)
    (usage : String)
    (h : goContains (V2.firstLine usage) flagsPlaceholder = true) :
    (V2.Add opt name flagsText run usage).isPanic = true := by
  rw [V2.Add]
  by_cases h1 : (mapLookup opt.commands name).isSome
  · simp [h1, Step.isPanic]
  · simp only [h1, if_false]
    by_cases h2 : usage = ""
    · simp [h2, Step.isPanic]
    · simp [h2, h, Step.isPanic]

/-- Witness for C3: registering a usage text whose first line holds
`{{flags}}` panics. -/
theorem add_flags_in_first_line_panics_witness :
    goContains (V2.firstLine ("do it \x7b\x7bflags\x7d\x7d\nrest"))
      flagsPlaceholder = true ∧
    (V2.Add ⟨[], 0⟩ ("x") ("") (fun _ => none)
      ("do it \x7b\x7bflags\x7d\x7d\nrest")).isPanic = true :=
  ⟨by decide,
   add_flags_in_first_line_panics ⟨[], 0⟩ "x" "" (fun _ => none)
     ("do it \x7b\x7bflags\x7d\x7d\nrest") (by decide)⟩

/-! ### C6 -/

/-- C6: for every dispatcher whose cached `maxCmdLen` equals the actual
maximum registered name length (the invariant maintained by the
registration API), the rendered top-level usage is exactly the spec's
renderer: all literal occurrences of `{{flags}}` are replaced by the
flag-set's rendered default listing, all literal occurrences of
`{{commands}}` by one sorted line per subcommand padded to
`maxCmdLen + 3` and followed by the title, matching is literal case- and
whitespace-sensitive substring substitution, and a final newline
is appended when the result does not already end in one. -/
theorem usage_matches_spec_render (opt : CmdOpt)
    (h : opt.maxCmdLen = maxNameLen opt.commands) :
    opt.Usage =
      renderUsageSpec opt.usageTemplate opt.topFlagsText opt.commands := by
  have hb : opt.commandsBlock = String.join
      ((List.insertionSort (· ≤ ·) (mapKeys opt.commands)).map (fun n =>
        "  " ++ (n ++ spaces (maxNameLen opt.commands + 3 - n.utf8ByteSize)) ++
          (match mapLookup opt.commands n with
           | some c => c.title
           | none => "") ++ "\n")) := by
    rw [CmdOpt.commandsBlock, CmdOpt.Commands]
    congr 1
    apply List.map_congr_left
    intro n _
    rw [h]
    cases hl : mapLookup opt.commands n <;> simp [CmdOpt.Command, hl]
  simp only [CmdOpt.Usage, CmdOpt.buildUsage, renderUsageSpec]
  rw [hb]

/-- A dispatcher with a flag listing, two registered commands and the
spec §8 template shape. -/
def c6Opt : CmdOpt :=
  { cmd := wCmd,
    usageTemplate := "h\n\x7b\x7bflags\x7d\x7d\ncmds\n\x7b\x7bcommands\x7d\x7df",
    topFlagsText := "  -int int\n",
    write := fun _ => none,
    notFound := none,
    commands := [("test1test1", ⟨wExec, "test1", "ua"⟩),
                 ("t2", ⟨wExec, "test2", "ub"⟩)],
    maxCmdLen := 10, execed := false }

/-- Witness for C6: at the concrete dispatcher the invariant holds and
the rendered usage agrees with the spec renderer; the rendered text is
the byte-for-byte aligned columnar layout with the sorted, padded
command lines and the appended final newline. -/
theorem usage_matches_spec_render_witness :
    c6Opt.maxCmdLen = maxNameLen c6Opt.commands ∧
    c6Opt.Usage =
      renderUsageSpec c6Opt.usageTemplate c6Opt.topFlagsText c6Opt.commands ∧
    c6Opt.Usage =
      "h\n  -int int\n\ncmds\n  t2           test2\n  test1test1   test1\nf\n" := by
  refine ⟨rfl, usage_matches_spec_render c6Opt rfl, ?_⟩
  rw [CmdOpt.Usage, CmdOpt.buildUsage]
  have hb : c6Opt.commandsBlock =
      "  t2           test2\n  test1test1   test1\n" := by
    rw [CmdOpt.commandsBlock, CmdOpt.Commands]
    have : mapKeys c6Opt.commands = ["test1test1", "t2"] := rfl
    rw [this]
    have hs : List.insertionSort (· ≤ ·) ["test1test1", "t2"] =
        ["t2", "test1test1"] := by
      simp [List.insertionSort, List.orderedInsert]
      decide
    rw [hs]
    decide
  rw [hb]
  simp +decide [c6Opt, goReplaceAll, goReplaceAllAux, flagsPlaceholder,
    commandsPlaceholder, String.length, List.drop]

end Cmdopt
